import Mathlib

/-!
Verification of the sproxyd client library (key generation, endpoint-pool
failover, request construction, response classification, batch delete).

The JavaScript source is shallowly embedded: buffers of bytes become
`List Nat` (each element `< 256` where it matters), strings become `String`,
HTTP request objects become the `Request` structure, and the mutable
bootstrap list plus its `current` pointer become the `Pool` structure.
External collaborators (the MD5 digest from node's `crypto`, the random byte
source, the `async.eachLimit` scheduler) are parameters of the embedding.
-/

namespace Sproxyd

/-! ## Hex rendering (Buffer.toString('hex').toUpperCase()) -/

/-- Uppercase hex digit table: digit `n` of `"0123456789ABCDEF"`. -/
def hexDigitU (n : Nat) : Char :=
  "0123456789ABCDEF".data.getD n '0'

/-- Numeric value of an uppercase hex digit character. -/
def hexCharVal (c : Char) : Nat :=
  match c with
  | '0' => 0 | '1' => 1 | '2' => 2 | '3' => 3 | '4' => 4
  | '5' => 5 | '6' => 6 | '7' => 7 | '8' => 8 | '9' => 9
  | 'A' => 10 | 'B' => 11 | 'C' => 12 | 'D' => 13 | 'E' => 14 | 'F' => 15
  | _ => 0

/-- Renders a byte buffer as its uppercase hexadecimal character sequence,
two characters per byte, as `Buffer.toString('hex').toUpperCase()` does. -/
def toUpperHex (l : List Nat) : List Char :=
  l.flatMap fun b => [hexDigitU (b / 16), hexDigitU (b % 16)]

/-- Value of the hex pair `(c, d)` read as one byte. -/
def hexPairVal (c d : Char) : Nat := hexCharVal c * 16 + hexCharVal d

/-- Byte `i` obtained by hex-decoding characters `2*i` and `2*i+1` of `s`. -/
def decodedByte (s : String) (i : Nat) : Nat :=
  hexPairVal (s.data.getD (2 * i) '0') (s.data.getD (2 * i + 1) '0')

/-- The character is one of `0-9A-F`. -/
abbrev isUpperHexDigit (c : Char) : Prop := c ∈ "0123456789ABCDEF".data

theorem hexCharVal_hexDigitU : ∀ n < 16, hexCharVal (hexDigitU n) = n := by decide

theorem hexDigitU_isUpperHexDigit (n : Nat) : isUpperHexDigit (hexDigitU n) := by
  by_cases h : n < 16
  · revert h
    revert n
    decide
  · have hlen : "0123456789ABCDEF".data.length ≤ n := by
      simp only [not_lt] at h
      exact le_trans (by decide) h
    rw [hexDigitU, List.getD_eq_default _ _ hlen]
    decide

theorem hexPairVal_encode (b : Nat) (hb : b < 256) :
    hexPairVal (hexDigitU (b / 16)) (hexDigitU (b % 16)) = b := by
  have h1 : b / 16 < 16 := by omega
  have h2 : b % 16 < 16 := by omega
  simp only [hexPairVal, hexCharVal_hexDigitU _ h1, hexCharVal_hexDigitU _ h2]
  omega

theorem length_toUpperHex (l : List Nat) : (toUpperHex l).length = 2 * l.length := by
  induction l with
  | nil => rfl
  | cons b t ih => simp [toUpperHex, List.flatMap] at ih ⊢; omega

theorem mem_toUpperHex (l : List Nat) : ∀ c ∈ toUpperHex l, isUpperHexDigit c := by
  induction l with
  | nil => simp [toUpperHex]
  | cons b t ih =>
    intro c hc
    simp only [toUpperHex, List.flatMap_cons, List.mem_append, List.mem_cons] at hc
    rcases hc with (h | h | h) | h
    · exact h ▸ hexDigitU_isUpperHexDigit _
    · exact h ▸ hexDigitU_isUpperHexDigit _
    · simp at h
    · exact ih c h

/-- Hex-decoding inverts `toUpperHex` position by position. -/
theorem decodedByte_toUpperHex (l : List Nat) (hl : ∀ b ∈ l, b < 256) :
    ∀ i < l.length,
      hexPairVal ((toUpperHex l).getD (2 * i) '0') ((toUpperHex l).getD (2 * i + 1) '0')
        = l.getD i 0 := by
  induction l with
  | nil => intro i hi; simp at hi
  | cons b t ih =>
    intro i hi
    match i with
    | 0 =>
      simp only [toUpperHex, List.flatMap_cons, List.cons_append, Nat.mul_zero,
        List.getD_cons_zero, List.nil_append, Nat.zero_add, List.getD_cons_succ]
      exact hexPairVal_encode b (hl b (List.mem_cons_self b t))
    | Nat.succ j =>
      have h2 : 2 * (j + 1) = 2 * j + 1 + 1 := by omega
      have h3 : 2 * (j + 1) + 1 = (2 * j + 1) + 1 + 1 := by omega
      simp only [toUpperHex, List.flatMap_cons, List.cons_append, h2, h3,
        List.getD_cons_succ, List.nil_append, List.getD_cons_zero]
      have ht : ∀ x ∈ t, x < 256 := fun x hx => hl x (List.mem_cons_of_mem b hx)
      have hj : j < t.length := by simpa using Nat.lt_of_succ_lt_succ (by simpa using hi)
      simpa [toUpperHex] using ih ht j hj

/-! ## List destructuring helpers -/

theorem listHeads2 (l : List Nat) (h : 2 ≤ l.length) :
    ∃ a b t, l = a :: b :: t := by
  rcases l with _ | ⟨a, l⟩; · simp at h
  rcases l with _ | ⟨b, l⟩; · simp at h
  exact ⟨a, b, l, rfl⟩

theorem listHeads3 (l : List Nat) (h : 3 ≤ l.length) :
    ∃ a b c t, l = a :: b :: c :: t := by
  rcases l with _ | ⟨a, l⟩; · simp at h
  obtain ⟨b, c, t, rfl⟩ := listHeads2 l (by simpa using Nat.le_of_succ_le_succ h)
  exact ⟨a, b, c, t, rfl⟩

theorem listHeads4 (l : List Nat) (h : 4 ≤ l.length) :
    ∃ a b c d t, l = a :: b :: c :: d :: t := by
  rcases l with _ | ⟨a, l⟩; · simp at h
  obtain ⟨b, c, d, t, rfl⟩ := listHeads3 l (by simp at h; omega)
  exact ⟨a, b, c, d, t, rfl⟩

theorem listHeads11 (l : List Nat) (h : 11 ≤ l.length) :
    ∃ a b c d e f g i j k m t,
      l = a :: b :: c :: d :: e :: f :: g :: i :: j :: k :: m :: t := by
  obtain ⟨a, b, c, d, l, rfl⟩ := listHeads4 l (by omega)
  obtain ⟨e, f, g, i, l, rfl⟩ := listHeads4 l (by simp at h; omega)
  obtain ⟨j, k, m, t, rfl⟩ := listHeads3 l (by simp at h; omega)
  exact ⟨a, b, c, d, e, f, g, i, j, k, m, t, rfl⟩

/-! ## Key generation (src/lib/keygen.js)

`createKey` assembles a 20-byte buffer from MD5 prefixes of the routing
parameters, 11 random bytes, the service-id constant and the class-of-service
byte, then renders it as 40 uppercase hex characters.  The MD5 digest and the
random bytes come from node's `crypto` module (an external collaborator), so
the embedding takes the digest function `md5` and the drawn random bytes
`rand` as parameters; the cos byte is the one the client passes
(`keygen(this.cos, params)` in the client source). -/

/-- Routing parameters for key generation.  The JavaScript field
`namespace` is spelled `nameSpace` because `namespace` is a Lean keyword. -/
structure RoutingParams where
  bucketName : String
  nameSpace : String
  owner : String

/-- The service-id constant byte (`sid = new Buffer([0x59])`). -/
def sid : Nat := 0x59

/-- `createMd5(str, len)`: first `len` bytes of the MD5 digest of `str`. -/
def createMd5 (md5 : String → List Nat) (str : String) (len : Nat) : List Nat :=
  (md5 str).take len

/-- The 20-byte key buffer built by `createKey` (`Buffer.concat([...])`). -/
def createKeyBytes (md5 : String → List Nat) (cos : Nat) (rand : List Nat)
    (params : RoutingParams) : List Nat :=
  let hashNamespace := createMd5 md5 params.nameSpace 2
  let hashOwner := createMd5 md5 params.owner 3
  let hashBucket := createMd5 md5 params.bucketName 4
  rand.take 8 ++
    [hashNamespace.getD 0 0,
     Nat.xor (hashNamespace.getD 1 0) (hashOwner.getD 0 0),
     hashOwner.getD 1 0,
     Nat.xor (hashOwner.getD 2 0) (hashBucket.getD 0 0)] ++
    hashBucket.drop 1 ++
    [sid] ++
    (rand.drop 8).take 3 ++
    [cos]

/-- `createKey`: the key buffer rendered as an uppercase hex string. -/
def createKey (md5 : String → List Nat) (cos : Nat) (rand : List Nat)
    (params : RoutingParams) : String :=
  ⟨toUpperHex (createKeyBytes md5 cos rand params)⟩

/-- C1: For every RoutingParams (bucketName, namespace, owner) with all three
fields non-empty, and for the cos byte `c` the client passes to keygen,
`createKey` returns a string of exactly 40 uppercase hex characters whose
decoded byte 8 equals `md5(namespace)[0]`, byte 9 equals
`md5(namespace)[1] XOR md5(owner)[0]`, byte 10 equals `md5(owner)[1]`,
byte 11 equals `md5(owner)[2] XOR md5(bucketName)[0]`, bytes 12..15 equal
`md5(bucketName)[1..4]`, byte 15 equals the sid constant 0x59, and byte 19
equals `c`. -/
theorem keygen_layout (md5 : String → List Nat) (cos : Nat) (rand : List Nat)
    (p : RoutingParams)
    (hlen : ∀ s, (md5 s).length = 16)
    (hbyte : ∀ s, ∀ b ∈ md5 s, b < 256)
    (hr : rand.length = 11) (hrb : ∀ b ∈ rand, b < 256) (hcos : cos < 256)
    (hbne : p.bucketName ≠ "") (hnne : p.nameSpace ≠ "") (hone : p.owner ≠ "") :
    (createKey md5 cos rand p).length = 40 ∧
    (∀ c ∈ (createKey md5 cos rand p).data, isUpperHexDigit c) ∧
    decodedByte (createKey md5 cos rand p) 8 = (md5 p.nameSpace).getD 0 0 ∧
    decodedByte (createKey md5 cos rand p) 9 =
      Nat.xor ((md5 p.nameSpace).getD 1 0) ((md5 p.owner).getD 0 0) ∧
    decodedByte (createKey md5 cos rand p) 10 = (md5 p.owner).getD 1 0 ∧
    decodedByte (createKey md5 cos rand p) 11 =
      Nat.xor ((md5 p.owner).getD 2 0) ((md5 p.bucketName).getD 0 0) ∧
    decodedByte (createKey md5 cos rand p) 12 = (md5 p.bucketName).getD 1 0 ∧
    decodedByte (createKey md5 cos rand p) 13 = (md5 p.bucketName).getD 2 0 ∧
    decodedByte (createKey md5 cos rand p) 14 = (md5 p.bucketName).getD 3 0 ∧
    decodedByte (createKey md5 cos rand p) 15 = sid ∧
    decodedByte (createKey md5 cos rand p) 19 = cos := by
  obtain ⟨r0, r1, r2, r3, r4, r5, r6, r7, r8, r9, r10, tr, rfl⟩ :=
    listHeads11 rand (by omega)
  obtain ⟨n0, n1, tn, hNs⟩ := listHeads2 (md5 p.nameSpace) (by rw [hlen]; omega)
  obtain ⟨o0, o1, o2, tow, hOw⟩ := listHeads3 (md5 p.owner) (by rw [hlen]; omega)
  obtain ⟨b0, b1, b2, b3, tb, hBk⟩ :=
    listHeads4 (md5 p.bucketName) (by rw [hlen]; omega)
  have hn0 : n0 < 256 := hbyte p.nameSpace n0 (by rw [hNs]; simp)
  have hn1 : n1 < 256 := hbyte p.nameSpace n1 (by rw [hNs]; simp)
  have ho0 : o0 < 256 := hbyte p.owner o0 (by rw [hOw]; simp)
  have ho1 : o1 < 256 := hbyte p.owner o1 (by rw [hOw]; simp)
  have ho2 : o2 < 256 := hbyte p.owner o2 (by rw [hOw]; simp)
  have hb0 : b0 < 256 := hbyte p.bucketName b0 (by rw [hBk]; simp)
  have hb1 : b1 < 256 := hbyte p.bucketName b1 (by rw [hBk]; simp)
  have hb2 : b2 < 256 := hbyte p.bucketName b2 (by rw [hBk]; simp)
  have hb3 : b3 < 256 := hbyte p.bucketName b3 (by rw [hBk]; simp)
  have hx1 : Nat.xor n1 o0 < 256 := by
    have := Nat.xor_lt_two_pow (n := 8) hn1 ho0; simpa using this
  have hx2 : Nat.xor o2 b0 < 256 := by
    have := Nat.xor_lt_two_pow (n := 8) ho2 hb0; simpa using this
  have hKB : createKeyBytes md5 cos
      (r0 :: r1 :: r2 :: r3 :: r4 :: r5 :: r6 :: r7 :: r8 :: r9 :: r10 :: tr) p =
      [r0, r1, r2, r3, r4, r5, r6, r7,
       n0, Nat.xor n1 o0, o1, Nat.xor o2 b0, b1, b2, b3, sid,
       r8, r9, r10, cos] := by
    simp [createKeyBytes, createMd5, hNs, hOw, hBk]
  have hdata : (createKey md5 cos
      (r0 :: r1 :: r2 :: r3 :: r4 :: r5 :: r6 :: r7 :: r8 :: r9 :: r10 :: tr) p).data =
      toUpperHex [r0, r1, r2, r3, r4, r5, r6, r7,
       n0, Nat.xor n1 o0, o1, Nat.xor o2 b0, b1, b2, b3, sid,
       r8, r9, r10, cos] := by
    simp [createKey, hKB]
  have hr0 : r0 < 256 := hrb r0 (by simp)
  have hr1 : r1 < 256 := hrb r1 (by simp)
  have hr2 : r2 < 256 := hrb r2 (by simp)
  have hr3 : r3 < 256 := hrb r3 (by simp)
  have hr4 : r4 < 256 := hrb r4 (by simp)
  have hr5 : r5 < 256 := hrb r5 (by simp)
  have hr6 : r6 < 256 := hrb r6 (by simp)
  have hr7 : r7 < 256 := hrb r7 (by simp)
  have hr8 : r8 < 256 := hrb r8 (by simp)
  have hr9 : r9 < 256 := hrb r9 (by simp)
  have hr10 : r10 < 256 := hrb r10 (by simp)
  have hbound : ∀ b ∈ [r0, r1, r2, r3, r4, r5, r6, r7,
      n0, Nat.xor n1 o0, o1, Nat.xor o2 b0, b1, b2, b3, sid,
      r8, r9, r10, cos], b < 256 := by
    intro b hb
    simp only [List.mem_cons, List.not_mem_nil, or_false] at hb
    rcases hb with rfl | rfl | rfl | rfl | rfl | rfl | rfl | rfl | rfl | rfl |
      rfl | rfl | rfl | rfl | rfl | rfl | rfl | rfl | rfl | rfl
    exacts [hr0, hr1, hr2, hr3, hr4, hr5, hr6, hr7, hn0, hx1, ho1, hx2,
      hb1, hb2, hb3, by decide, hr8, hr9, hr10, hcos]
  refine ⟨?_, ?_, ?_, ?_, ?_, ?_, ?_, ?_, ?_, ?_, ?_⟩
  · show (createKey md5 cos
      (r0 :: r1 :: r2 :: r3 :: r4 :: r5 :: r6 :: r7 :: r8 :: r9 :: r10 :: tr)
      p).data.length = 40
    rw [hdata, length_toUpperHex]
    rfl
  · rw [hdata]
    exact mem_toUpperHex _
  · rw [decodedByte, hdata, decodedByte_toUpperHex _ hbound 8 (by simp), hNs]
    rfl
  · rw [decodedByte, hdata, decodedByte_toUpperHex _ hbound 9 (by simp), hNs, hOw]
    rfl
  · rw [decodedByte, hdata, decodedByte_toUpperHex _ hbound 10 (by simp), hOw]
    rfl
  · rw [decodedByte, hdata, decodedByte_toUpperHex _ hbound 11 (by simp), hOw, hBk]
    rfl
  · rw [decodedByte, hdata, decodedByte_toUpperHex _ hbound 12 (by simp), hBk]
    rfl
  · rw [decodedByte, hdata, decodedByte_toUpperHex _ hbound 13 (by simp), hBk]
    rfl
  · rw [decodedByte, hdata, decodedByte_toUpperHex _ hbound 14 (by simp), hBk]
    rfl
  · rw [decodedByte, hdata, decodedByte_toUpperHex _ hbound 15 (by simp)]
    rfl
  · rw [decodedByte, hdata, decodedByte_toUpperHex _ hbound 19 (by simp)]
    rfl


/-- Witness for C1 at a concrete input. -/
theorem keygen_layout_witness :
    (createKey (fun _ => List.range 16) 2 (List.range 11)
      ⟨"vogosphere", "poem", "jeltz"⟩).length = 40 :=
  (keygen_layout (fun _ => List.range 16) 2 (List.range 11)
      ⟨"vogosphere", "poem", "jeltz"⟩
      (fun _ => by simp) (fun _ => fun b hb => by simp at hb; omega)
      (by decide) (by decide)
      (by decide) (by decide) (by decide) (by decide)).1

/-- C9: Two invocations of `createKey` with the same RoutingParams and cos
byte, but arbitrary outcomes of the random byte source, agree on hex
characters 16..32 (key bytes 8..16: the namespace/owner/bucket hash bytes
and the sid byte); only the random-byte positions may differ. -/
theorem keygen_derived_stable (md5 : String → List Nat) (cos : Nat)
    (rand1 rand2 : List Nat) (p : RoutingParams)
    (hlen : ∀ s, (md5 s).length = 16)
    (h1 : rand1.length = 11) (h2 : rand2.length = 11) :
    ((createKey md5 cos rand1 p).data.drop 16).take 16 =
      ((createKey md5 cos rand2 p).data.drop 16).take 16 := by
  obtain ⟨a0, a1, a2, a3, a4, a5, a6, a7, a8, a9, a10, tr1, rfl⟩ :=
    listHeads11 rand1 (by omega)
  obtain ⟨c0, c1, c2, c3, c4, c5, c6, c7, c8, c9, c10, tr2, rfl⟩ :=
    listHeads11 rand2 (by omega)
  obtain ⟨n0, n1, tn, hNs⟩ := listHeads2 (md5 p.nameSpace) (by rw [hlen]; omega)
  obtain ⟨o0, o1, o2, tow, hOw⟩ := listHeads3 (md5 p.owner) (by rw [hlen]; omega)
  obtain ⟨b0, b1, b2, b3, tb, hBk⟩ :=
    listHeads4 (md5 p.bucketName) (by rw [hlen]; omega)
  simp only [createKey, createKeyBytes, createMd5, hNs, hOw, hBk]
  rfl

/-- Witness for C9 at a concrete input: two distinct random draws. -/
theorem keygen_derived_stable_witness :
    ((createKey (fun _ => List.range 16) 2 (List.range 11)
        ⟨"vogosphere", "poem", "jeltz"⟩).data.drop 16).take 16 =
      ((createKey (fun _ => List.range 16) 2 (List.replicate 11 7)
        ⟨"vogosphere", "poem", "jeltz"⟩).data.drop 16).take 16 :=
  keygen_derived_stable (fun _ => List.range 16) 2 (List.range 11)
    (List.replicate 11 7) ⟨"vogosphere", "poem", "jeltz"⟩
    (fun _ => by simp) (by decide) (by decide)

/-! ## Endpoint pool and failover (class SproxydClient)

The client keeps `this.bootstrap`, an ordered list of `[host, port]` pairs,
and `this.current`, the head endpoint used for the next attempt.  Both are
captured in `Pool`.  `_shiftCurrentBootstrapToEnd` compares the current
endpoint with the endpoint observed before the failed attempt and only
rotates when they match. -/

/-- One sproxyd endpoint: a `[hostname, port]` pair (both strings, as
produced by `value.split(':')`). -/
abbrev Endpoint := String × String

/-- The bootstrap list plus the current head endpoint. -/
structure Pool where
  bootstrap : List Endpoint
  current : Endpoint
deriving DecidableEq, Repr

/-- `_shiftCurrentBootstrapToEnd(log, failedBootstrap)`: if the current
endpoint no longer equals the failed one, skip; otherwise move the head of
the bootstrap list to the tail and make the new head current.  (The source
never reaches this with an empty bootstrap list; the empty case is a
no-op here.) -/
def _shiftCurrentBootstrapToEnd (p : Pool) (failedBootstrap : Endpoint) : Pool :=
  if p.current.1 ≠ failedBootstrap.1 ∨ p.current.2 ≠ failedBootstrap.2 then p
  else
    match p.bootstrap with
    | [] => p
    | previousEntry :: rest =>
      let newBootstrap := rest ++ [previousEntry]
      { bootstrap := newBootstrap, current := newBootstrap.headD previousEntry }

/-- The error object passed to callbacks.  `code` is set by the response
handler; `isExpected` marks definite non-success statuses; `retryable` is
set by `_handleRequest`'s outcome classification. -/
structure Err where
  code : Option Nat := none
  isExpected : Bool := false
  retryable : Bool := false
deriving DecidableEq, Repr

/-- What one `_failover` callback invocation does with the outcome of the
attempt: swallow it (the multiple-response guard), deliver it to the
caller, or retry with an incremented try counter. -/
inductive FailoverAction where
  | ignore
  | deliver (outcome : Option Err)
  | retry (tries : Nat)
deriving DecidableEq, Repr

/-- One step of `_failover`'s outcome handling, mirroring its callback:
`outcome` is `some err` for a failed attempt and `none` for success;
`currentBootstrap` is the endpoint read before the attempt;
`receivedResponse` is the one-shot completion flag (false on the first
outcome of an attempt).  Returns the action taken and the pool afterwards. -/
def _failoverStep (pool : Pool) (currentBootstrap : Endpoint) (tries : Nat)
    (receivedResponse : Bool) (outcome : Option Err) : FailoverAction × Pool :=
  match outcome with
  | some err =>
    if !err.isExpected then
      if receivedResponse then (.ignore, pool)
      else if !err.retryable then (.deliver (some err), pool)
      else if tries + 1 ≥ pool.bootstrap.length then (.deliver (some err), pool)
      else (.retry (tries + 1), _shiftCurrentBootstrapToEnd pool currentBootstrap)
    else (.deliver (some err), pool)
  | none => (.deliver none, pool)

/-- C2: The failover wrapper, on the first outcome of an attempt
(`receivedResponse = false`): an expected error is delivered with no retry
and no pool rotation; a non-retryable error is delivered with no retry; a
retryable error whose incremented retry count is still below the pool
length rotates the pool past the endpoint observed before the attempt and
retries with the incremented count; once the incremented count reaches the
pool length the error is delivered (exhausted). -/
theorem failover_policy (pool : Pool) (started : Endpoint) (tries : Nat)
    (err : Err) :
    (err.isExpected = true →
      _failoverStep pool started tries false (some err) =
        (.deliver (some err), pool)) ∧
    (err.isExpected = false → err.retryable = false →
      _failoverStep pool started tries false (some err) =
        (.deliver (some err), pool)) ∧
    (err.isExpected = false → err.retryable = true →
      tries + 1 < pool.bootstrap.length →
      _failoverStep pool started tries false (some err) =
        (.retry (tries + 1), _shiftCurrentBootstrapToEnd pool started)) ∧
    (err.isExpected = false → err.retryable = true →
      tries + 1 ≥ pool.bootstrap.length →
      _failoverStep pool started tries false (some err) =
        (.deliver (some err), pool)) := by
  refine ⟨?_, ?_, ?_, ?_⟩
  · intro h; simp [_failoverStep, h]
  · intro h1 h2; simp [_failoverStep, h1, h2]
  · intro h1 h2 h3; simp [_failoverStep, h1, h2, Nat.not_le_of_lt h3, h3]
  · intro h1 h2 h3; simp [_failoverStep, h1, h2, h3]

/-- Witness for C2: a retryable transport error with one retry left rotates
the two-endpoint pool and retries. -/
theorem failover_policy_witness :
    _failoverStep ⟨[("a", "1"), ("b", "2")], ("a", "1")⟩ ("a", "1") 0 false
        (some { retryable := true }) =
      (.retry 1,
        _shiftCurrentBootstrapToEnd ⟨[("a", "1"), ("b", "2")], ("a", "1")⟩
          ("a", "1")) :=
  (failover_policy ⟨[("a", "1"), ("b", "2")], ("a", "1")⟩ ("a", "1") 0
    { retryable := true }).2.2.1 rfl rfl (by decide)

/-- Normal form of `_shiftCurrentBootstrapToEnd`: rotate exactly when the
current endpoint equals the failed one. -/
theorem shift_eq (p : Pool) (e : Endpoint) :
    _shiftCurrentBootstrapToEnd p e =
      if p.current = e then
        match p.bootstrap with
        | [] => p
        | previousEntry :: rest =>
          { bootstrap := rest ++ [previousEntry],
            current := (rest ++ [previousEntry]).headD previousEntry }
      else p := by
  by_cases h : p.current = e
  · simp [_shiftCurrentBootstrapToEnd, h]
  · have h' : p.current.1 ≠ e.1 ∨ p.current.2 ≠ e.2 := by
      rw [Prod.ext_iff] at h
      exact not_and_or.mp h
    simp only [_shiftCurrentBootstrapToEnd, if_pos h', if_neg h]

/-- Counterexample to C5 as stated: with a duplicated head endpoint
(`[A, A, B]`, current `A`), rotating past `A` twice rotates twice, so the
operation is not idempotent on every pool state. -/
theorem rotatePast_not_idempotent :
    _shiftCurrentBootstrapToEnd
        (_shiftCurrentBootstrapToEnd
          ⟨[("a", "1"), ("a", "1"), ("b", "2")], ("a", "1")⟩ ("a", "1"))
        ("a", "1") ≠
      _shiftCurrentBootstrapToEnd
        ⟨[("a", "1"), ("a", "1"), ("b", "2")], ("a", "1")⟩ ("a", "1") := by
  decide

/-- C5 (amended): rotate-past moves the head endpoint to the tail exactly
when the current endpoint equals `e` and is a no-op otherwise, and each
call preserves the multiset of endpoints; when the current endpoint is the
head of the list and `e` occurs at most once in the pool, calling it twice
in a row with the same `e` rotates at most once. -/
theorem rotatePast_spec (p : Pool) (e : Endpoint) :
    (p.current ≠ e → _shiftCurrentBootstrapToEnd p e = p) ∧
    (p.current = e → ∀ previousEntry rest, p.bootstrap = previousEntry :: rest →
      _shiftCurrentBootstrapToEnd p e =
        { bootstrap := rest ++ [previousEntry],
          current := (rest ++ [previousEntry]).headD previousEntry }) ∧
    ((_shiftCurrentBootstrapToEnd p e).bootstrap.Perm p.bootstrap) ∧
    (p.bootstrap.head? = some p.current → p.bootstrap.count e ≤ 1 →
      _shiftCurrentBootstrapToEnd (_shiftCurrentBootstrapToEnd p e) e =
        _shiftCurrentBootstrapToEnd p e) := by
  refine ⟨?_, ?_, ?_, ?_⟩
  · intro h
    rw [shift_eq, if_neg h]
  · intro h previousEntry rest hb
    rw [shift_eq, if_pos h, hb]
  · rcases p with ⟨bs, cur⟩
    by_cases h : cur = e
    · rcases bs with _ | ⟨previousEntry, rest⟩
      · rw [shift_eq]
        simp
      · rw [shift_eq]
        simp only [h, if_pos]
        exact List.perm_append_singleton previousEntry rest
    · rw [shift_eq]
      simp [h]
  · intro hhead hcount
    by_cases h : p.current = e
    · rcases p with ⟨bs, cur⟩
      simp only at h
      subst h
      rcases bs with _ | ⟨previousEntry, rest⟩
      · simp at hhead
      · simp only [List.head?_cons, Option.some.injEq] at hhead
        subst hhead
        have h1 : _shiftCurrentBootstrapToEnd ⟨previousEntry :: rest, previousEntry⟩
            previousEntry =
            ⟨rest ++ [previousEntry], (rest ++ [previousEntry]).headD previousEntry⟩ := by
          rw [shift_eq, if_pos rfl]
        rw [h1]
        rcases rest with _ | ⟨r, rs⟩
        · simp [shift_eq]
        · have hr : r ≠ previousEntry := by
            have hcount' : List.count previousEntry (previousEntry :: r :: rs) ≤ 1 :=
              hcount
            have : previousEntry ∉ r :: rs := by
              rw [← List.count_eq_zero]
              have := List.count_cons_self previousEntry (r :: rs)
              omega
            intro hre
            exact this (by rw [← hre]; exact List.mem_cons_self r rs)
          have hcur : ((r :: rs) ++ [previousEntry]).headD previousEntry = r := rfl
          rw [shift_eq, hcur, if_neg (by exact fun hh => hr hh)]
    · have h1 : _shiftCurrentBootstrapToEnd p e = p := by rw [shift_eq, if_neg h]
      rw [h1]
      exact h1

/-- Witness for C5's amended claim: a duplicate-free two-endpoint pool,
rotating past the current head twice equals rotating once. -/
theorem rotatePast_spec_witness :
    _shiftCurrentBootstrapToEnd
        (_shiftCurrentBootstrapToEnd
          ⟨[("a", "1"), ("b", "2")], ("a", "1")⟩ ("a", "1")) ("a", "1") =
      _shiftCurrentBootstrapToEnd
        ⟨[("a", "1"), ("b", "2")], ("a", "1")⟩ ("a", "1") :=
  (rotatePast_spec ⟨[("a", "1"), ("b", "2")], ("a", "1")⟩ ("a", "1")).2.2.2
    (by decide) (by decide)

/-! ## Response status handling (_createRequest)

`_createRequest`'s response handler treats 200 as success, 206 as success
(ranged GET), and 423 as success when the request method is DELETE; every
other status produces an error carrying the status code and flagged
`isExpected`. -/

/-- The response handler of `_createRequest`: given the request method and
the response status code, succeed with the response (represented by its
status code) or fail with an expected error carrying the code. -/
def handleResponseStatus (method : String) (statusCode : Nat) : Except Err Nat :=
  if statusCode ≠ 200 ∧ statusCode ≠ 206 ∧
      ¬(statusCode = 423 ∧ method = "DELETE") then
    .error { code := some statusCode, isExpected := true }
  else .ok statusCode

/-- C4: status 200 is a success; status 206 is a success for a (ranged)
GET; status 423 is a success exactly when the method is DELETE; every
other status delivers an error flagged expected and carrying the numeric
status code. -/
theorem response_status_policy (method : String) (statusCode : Nat) :
    (statusCode = 200 → handleResponseStatus method statusCode = .ok statusCode) ∧
    (statusCode = 206 → method = "GET" →
      handleResponseStatus method statusCode = .ok statusCode) ∧
    (statusCode = 423 →
      (handleResponseStatus method statusCode = .ok statusCode ↔
        method = "DELETE")) ∧
    (statusCode ≠ 200 → statusCode ≠ 206 →
      ¬(statusCode = 423 ∧ method = "DELETE") →
      handleResponseStatus method statusCode =
        .error { code := some statusCode, isExpected := true }) := by
  refine ⟨?_, ?_, ?_, ?_⟩
  · intro h
    simp [handleResponseStatus, h]
  · intro h _
    simp [handleResponseStatus, h]
  · intro h
    subst h
    constructor
    · intro hok
      by_cases hm : method = "DELETE"
      · exact hm
      · simp [handleResponseStatus, hm] at hok
    · intro hm
      simp [handleResponseStatus, hm]
  · intro h1 h2 h3
    simp [handleResponseStatus, h1, h2, h3]

/-- Witness for C4: a 404 GET response yields an expected error
carrying code 404. -/
theorem response_status_policy_witness :
    handleResponseStatus "GET" 404 =
      .error { code := some 404, isExpected := true } :=
  (response_status_policy "GET" 404).2.2.2 (by decide) (by decide) (by decide)

/-! ## Retryability classification (_handleRequest)

The streaming (PUT-with-body) branch classifies a failed attempt as
retryable exactly when body streaming has not started and the caller has
not destroyed the stream; the non-streaming branch always classifies
failures as retryable. -/

/-- Error classification of the streaming branch:
`err.retryable = !(streamingStarted || voluntaryAbort)`. -/
def classifyStreamError (streamingStarted voluntaryAbort : Bool) (err : Err) : Err :=
  if streamingStarted || voluntaryAbort then { err with retryable := false }
  else { err with retryable := true }

/-- Error classification of the non-streaming branch: always retryable. -/
def classifyPlainError (err : Err) : Err := { err with retryable := true }

/-- The callback installed by the streaming branch of `_handleRequest`:
classify errors, return the generated key on success. -/
def putStreamCallback (streamingStarted voluntaryAbort : Bool) (newKey : String) :
    Option Err → Except Err String
  | some err => .error (classifyStreamError streamingStarted voluntaryAbort err)
  | none => .ok newKey

/-- The callback installed by the non-streaming branch of
`_handleRequest`: errors are always retryable; success returns the
response (represented by its status code). -/
def plainCallback (response : Nat) : Option Err → Except Err Nat
  | some err => .error (classifyPlainError err)
  | none => .ok response

/-- C3: for a PUT with a body stream, a failure before the pipeline began
piping the body (and not caused by the caller destroying the stream) is
classified retryable; a failure after streaming started or after a
voluntary abort is classified non-retryable; for operations without a body
stream a failure is always classified retryable. -/
theorem retryability_classification (err : Err)
    (streamingStarted voluntaryAbort : Bool) (newKey : String) (response : Nat) :
    (streamingStarted = false → voluntaryAbort = false →
      putStreamCallback streamingStarted voluntaryAbort newKey (some err) =
        .error { err with retryable := true }) ∧
    (streamingStarted = true ∨ voluntaryAbort = true →
      putStreamCallback streamingStarted voluntaryAbort newKey (some err) =
        .error { err with retryable := false }) ∧
    (plainCallback response (some err) = .error { err with retryable := true }) := by
  refine ⟨?_, ?_, ?_⟩
  · intro h1 h2
    simp [putStreamCallback, classifyStreamError, h1, h2]
  · intro h
    rcases h with h | h <;>
      simp [putStreamCallback, classifyStreamError, h]
  · rfl

/-- Witness for C3: a pre-streaming transport failure is retryable. -/
theorem retryability_classification_witness :
    putStreamCallback false false "k" (some {}) =
      .error { retryable := true } :=
  (retryability_classification {} false false "k" 200).1 rfl rfl

/-! ## Client state, construction and request building -/

/-- The fields of `SproxydClient` relevant to request construction. -/
structure SproxydClient where
  bootstrap : List Endpoint
  current : Endpoint
  cos : Nat
  path : String
  immutable : Bool
deriving DecidableEq, Repr

/-- Constructor options (`opts`). -/
structure Opts where
  bootstrap : Option (List String) := none
  chordCos : Option Nat := none
  path : Option String := none
  immutable : Bool := false

/-- JavaScript `a || b` for an optional string: the default is used when
the option is absent or the empty string (falsy). -/
def jsOrString (s : Option String) (d : String) : String :=
  match s with
  | some v => if v = "" then d else v
  | none => d

/-- `_parseBootstrapList`: split each `'hostname:port'` entry on `':'`. -/
def _parseBootstrapList (list : List String) : List Endpoint :=
  list.map fun value => ((value.splitOn ":").getD 0 "", (value.splitOn ":").getD 1 "")

/-- The `SproxydClient` constructor.  The shuffle of the bootstrap list is
random, so the embedding takes the permutation applied by `shuffle` as a
function parameter. -/
def mkSproxydClient (shuffle : List Endpoint → List Endpoint) (opts : Opts) :
    SproxydClient :=
  let parsed := match opts.bootstrap with
    | none => [("localhost", "81")]
    | some l => _parseBootstrapList l
  let bs := shuffle parsed
  let chordTruthy : Bool := match opts.chordCos with
    | some c => c != 0
    | none => false
  { bootstrap := bs
    current := bs.headD ("localhost", "81")
    cos := if chordTruthy then opts.chordCos.getD 0 else 0x2
    path := if chordTruthy then jsOrString opts.path "/proxy/chord/"
      else jsOrString opts.path "/proxy/arc/"
    immutable := opts.immutable }

/-- An outbound HTTP request as assembled by the client. -/
structure Request where
  hostname : String
  port : String
  method : String
  path : String
  headers : List (String × String)
  payload : Option String := none
deriving DecidableEq, Repr

/-- JavaScript property assignment `headers[name] = value` on an object
kept as an ordered association list: replace the existing entry or append. -/
def setHeader (hs : List (String × String)) (name value : String) :
    List (String × String) :=
  if hs.any (fun kv => kv.1 == name) then
    hs.map fun kv => if kv.1 == name then (name, value) else kv
  else hs ++ [(name, value)]

/-- Whether the header object contains an entry named `name`. -/
def hasHeaderB (hs : List (String × String)) (name : String) : Bool :=
  hs.any fun kv => kv.1 == name

/-- Value of header `name` (`""` when absent, standing for `undefined`). -/
def getHeaderD (hs : List (String × String)) (name : String) : String :=
  ((hs.find? fun kv => kv.1 == name).map Prod.snd).getD ""

/-- `_createRequestHeader(method, headers, key, params, log)`: build the
request descriptor, adding the immutable replica-policy header when the
client is configured immutable, the content type (JSON for the batch
delete key), the request-uid headers and the optional Range header. -/
def _createRequestHeader (c : SproxydClient) (method : String)
    (headers : List (String × String)) (key : String)
    (range : Option (Nat × Nat)) (reqUids : String) : Request :=
  let h1 := if c.immutable then
      setHeader headers "X-Scal-Replica-Policy" "immutable"
    else headers
  let h2 := setHeader h1 "content-type"
    (if key = ".batch_delete" then "application/json"
     else "application/octet-stream")
  let h3 := setHeader h2 "X-Scal-Request-Uids" reqUids
  let h4 := setHeader h3 "X-Scal-Trace-Ids" reqUids
  let h5 := match range with
    | some (a, b) => setHeader h4 "Range" (s!"bytes={a}-{b}")
    | none => h4
  { hostname := c.current.1
    port := c.current.2
    method
    path := c.path ++ key
    headers := h5 }

/-- The request assembled and sent by `_handleRequest`.  `key = none`
stands for a missing key (PUT generates one: `genKey`); the header object
built by `_createRequestHeader` is aliased by the source, so the
`content-length` / `content-type` assignments made after building the
request descriptor are applied to its headers. -/
def _handleRequestRequest (c : SproxydClient) (hasStream : Bool)
    (method : String) (size : Nat) (key : Option String)
    (headers : List (String × String)) (range : Option (Nat × Nat))
    (reqUids : String) (genKey : String) (payload : Option String) : Request :=
  let isBatchDelete := key = some ".batch_delete"
  let newKey := key.getD genKey
  let req := _createRequestHeader c method headers newKey range reqUids
  if hasStream then
    { req with headers := setHeader req.headers "content-length" (toString size) }
  else
    let h1 := setHeader req.headers "content-length"
      (if isBatchDelete then toString size else "0")
    let h2 := setHeader h1 "content-type"
      (if isBatchDelete then "application/json" else getHeaderD h1 "content-type")
    { req with headers := h2, payload := payload }

/-! ## Public verbs

Each verb is embedded as the request (or requests) it hands to the
transport, or an assertion failure when a precondition check throws.
`put` passes the caller's stream; its generated key (drawn by keygen when
no key scheme is supplied) is the `genKey` parameter. -/

/-- Whether a fallible computation succeeded. -/
def exceptOk {ε α : Type} : Except ε α → Bool
  | .ok _ => true
  | .error _ => false

/-- `put(stream, size, params, reqUids, callback, keyScheme)`: no key
validation; the streaming request is issued directly. -/
def put (c : SproxydClient) (size : Nat) (keyScheme : Option String)
    (reqUids genKey : String) : Except String Request :=
  .ok (_handleRequestRequest c true "PUT" size keyScheme [] none reqUids genKey none)

/-- `putEmptyObject(keyScheme, metadata, reqUids, callback)`: no key
validation; a bodyless PUT with the `x-scal-usermd` header. -/
def putEmptyObject (c : SproxydClient) (keyScheme metadata reqUids : String) :
    Except String Request :=
  .ok (_handleRequestRequest c false "PUT" 0 (some keyScheme)
    [("x-scal-usermd", metadata)] none reqUids "" none)

/-- `get(key, range, reqUids, callback)`: asserts the key is a string of
exactly 40 characters, then issues the GET. -/
def get (c : SproxydClient) (key : String) (range : Option (Nat × Nat))
    (reqUids : String) : Except String Request :=
  if key.length = 40 then
    .ok (_handleRequestRequest c false "GET" 0 (some key) [] range reqUids "" none)
  else .error "AssertionError"

/-- `getHEAD(key, reqUids, callback)`: asserts the key is a string of
exactly 40 characters, then issues the HEAD. -/
def getHEAD (c : SproxydClient) (key reqUids : String) : Except String Request :=
  if key.length = 40 then
    .ok (_handleRequestRequest c false "HEAD" 0 (some key) [] none reqUids "" none)
  else .error "AssertionError"

/-- `delete(key, reqUids, callback)`: asserts the key is a string of
exactly 40 characters, then issues the DELETE. -/
def delete (c : SproxydClient) (key reqUids : String) : Except String Request :=
  if key.length = 40 then
    .ok (_handleRequestRequest c false "DELETE" 0 (some key) [] none reqUids "" none)
  else .error "AssertionError"

/-- The batch-splitting loop of `batchDelete`:
`while (list.keys.length > 0) batches.push({keys: list.keys.splice(0, 1000)})`.
Returns the accumulated batches and the final state of the caller's
(destructively spliced) key array. -/
def batchDeleteLoop (listKeys : List String) (batches : List (List String)) :
    List (List String) × List String :=
  if h : 0 < listKeys.length then
    batchDeleteLoop (listKeys.drop 1000) (batches ++ [listKeys.take 1000])
  else (batches, listKeys)
termination_by listKeys.length
decreasing_by simp only [List.length_drop]; omega

/-- `JSON.stringify({keys: [...]})` for a list of key strings. -/
def stringifyKeys (ks : List String) : String :=
  "\x7b\"keys\":[" ++
    String.intercalate "," (ks.map fun k => "\"" ++ k ++ "\"") ++ "]\x7d"

/-- `batchDelete(list, reqUids, callback)`: asserts every entry has length
40, splits the list into batches, and issues one POST to the fixed key
`.batch_delete` per batch with the JSON payload. -/
def batchDelete (c : SproxydClient) (keys : List String) (reqUids : String) :
    Except String (List Request) :=
  if keys.all (fun k => k.length == 40) then
    .ok ((batchDeleteLoop keys []).1.map fun b =>
      _handleRequestRequest c false "POST" (stringifyKeys b).length
        (some ".batch_delete") [] none reqUids "" (some (stringifyKeys b)))
  else .error "AssertionError"

/-- `healthcheck(log, callback)`: a GET on `${path}.conf` built directly,
not through `_createRequestHeader`. -/
def healthcheckRequest (c : SproxydClient) (reqUids : String) : Request :=
  { hostname := c.current.1
    port := c.current.2
    method := "GET"
    path := c.path ++ ".conf"
    headers := [("X-Scal-Request-Uids", reqUids)] }

/-- Counterexample to C6 as stated: `putEmptyObject` issues a request for
the empty-string key — the supplied key is not validated before reaching
the wire. -/
theorem putEmptyObject_no_validation :
    exceptOk (putEmptyObject
        ⟨[("localhost", "81")], ("localhost", "81"), 2, "/proxy/arc/", false⟩
        "" "meta" "uid") = true ∧
      ("" : String).length ≠ 40 :=
  ⟨rfl, by decide⟩

/-- C6 (amended): `get`, `getHEAD` and `delete` validate that the supplied
key is a string of exactly 40 characters before issuing any request (an
invalid key never reaches the wire), and `batchDelete` validates every
entry of the key list likewise; `put` and `putEmptyObject` issue their
request without validating the supplied key scheme. -/
theorem key_validation (c : SproxydClient) (key metadata reqUids genKey : String)
    (range : Option (Nat × Nat)) (size : Nat) (keys : List String) :
    (exceptOk (get c key range reqUids) = true ↔ key.length = 40) ∧
    (exceptOk (getHEAD c key reqUids) = true ↔ key.length = 40) ∧
    (exceptOk (delete c key reqUids) = true ↔ key.length = 40) ∧
    (exceptOk (batchDelete c keys reqUids) = true ↔ ∀ k ∈ keys, k.length = 40) ∧
    exceptOk (putEmptyObject c key metadata reqUids) = true ∧
    exceptOk (put c size (some key) reqUids genKey) = true := by
  refine ⟨?_, ?_, ?_, ?_, rfl, rfl⟩
  · by_cases h : key.length = 40 <;> simp [get, h, exceptOk]
  · by_cases h : key.length = 40 <;> simp [getHEAD, h, exceptOk]
  · by_cases h : key.length = 40 <;> simp [delete, h, exceptOk]
  · by_cases h : keys.all (fun k => k.length == 40)
    · simp only [batchDelete, h, if_pos, exceptOk, true_iff]
      intro k hk
      have := List.all_eq_true.mp h k hk
      simpa using this
    · rw [batchDelete, if_neg h]
      simp only [exceptOk, Bool.false_eq_true, false_iff]
      intro hall
      exact h (List.all_eq_true.mpr fun k hk => by simpa using hall k hk)

/-- Witness for C6's amended claim: a valid 40-character key passes the
`get` validation. -/
theorem key_validation_witness :
    exceptOk (get
        ⟨[("localhost", "81")], ("localhost", "81"), 2, "/proxy/arc/", false⟩
        "0123456789ABCDEF0123456789ABCDEF01234567" none "uid") = true :=
  (key_validation
    ⟨[("localhost", "81")], ("localhost", "81"), 2, "/proxy/arc/", false⟩
    "0123456789ABCDEF0123456789ABCDEF01234567" "m" "uid" "g" none 0 []).1.mpr
    (by decide)

theorem batchDeleteLoop_snd :
    ∀ n (keys : List String), keys.length ≤ n →
      ∀ batches, (batchDeleteLoop keys batches).2 = [] := by
  intro n
  induction n with
  | zero =>
    intro keys hk batches
    have hk0 : keys = [] := List.length_eq_zero.mp (by omega)
    subst hk0
    rw [batchDeleteLoop]
    simp
  | succ n ih =>
    intro keys hk batches
    rw [batchDeleteLoop]
    by_cases h : 0 < keys.length
    · rw [dif_pos h]
      exact ih _ (by simp only [List.length_drop]; omega) _
    · rw [dif_neg h]
      show keys = []
      exact List.length_eq_zero.mp (by omega)

theorem batchDeleteLoop_fst_length :
    ∀ n (keys : List String), keys.length ≤ n →
      ∀ batches, (batchDeleteLoop keys batches).1.length =
        batches.length + (keys.length + 999) / 1000 := by
  intro n
  induction n with
  | zero =>
    intro keys hk batches
    have hk0 : keys = [] := List.length_eq_zero.mp (by omega)
    subst hk0
    rw [batchDeleteLoop]
    simp
  | succ n ih =>
    intro keys hk batches
    rw [batchDeleteLoop]
    by_cases h : 0 < keys.length
    · rw [dif_pos h]
      rw [ih _ (by simp only [List.length_drop]; omega) _]
      simp only [List.length_append, List.length_drop, List.length_cons,
        List.length_nil]
      omega
    · rw [dif_neg h]
      have : keys.length = 0 := by omega
      simp [this]

theorem batchDeleteLoop_fst_sizes :
    ∀ n (keys : List String), keys.length ≤ n →
      ∀ batches, (∀ b ∈ batches, b.length ≤ 1000) →
        ∀ b ∈ (batchDeleteLoop keys batches).1, b.length ≤ 1000 := by
  intro n
  induction n with
  | zero =>
    intro keys hk batches hb
    have hk0 : keys = [] := List.length_eq_zero.mp (by omega)
    subst hk0
    rw [batchDeleteLoop]
    simpa using hb
  | succ n ih =>
    intro keys hk batches hb
    rw [batchDeleteLoop]
    by_cases h : 0 < keys.length
    · rw [dif_pos h]
      refine ih _ (by simp only [List.length_drop]; omega) _ ?_
      intro b hmem
      rcases List.mem_append.mp hmem with hmem | hmem
      · exact hb b hmem
      · simp only [List.mem_singleton] at hmem
        subst hmem
        simpa using List.length_take_le 1000 keys
    · rw [dif_neg h]
      simpa using hb

/-- C10: `batchDelete` destructively consumes its argument: the splitting
loop splices every key out of the caller's `list.keys` array, so after the
call the array is empty. -/
theorem batchDelete_consumes_keys (keys : List String) :
    (batchDeleteLoop keys []).2 = [] :=
  batchDeleteLoop_snd keys.length keys (Nat.le_refl _) []

/-! ## The eachLimit scheduler (async library)

Modelled from the spec: `async.eachLimit(batches, 5, task, callback)`
dispatches the tasks in order with at most 5 in flight at any time, and
the overall callback fires once after all sub-batches complete, reporting
the first error if any.  The `async` library is an external dependency, so
its scheduling is embedded as a transition system and its aggregation as a
fold. -/

/-- Scheduler state: tasks not yet started, tasks in flight, tasks done. -/
structure ELState (τ : Type) where
  pending : List τ
  running : List τ
  finished : List τ

/-- One scheduler transition: start the next pending task when fewer than
`limit` are in flight, or complete any in-flight task. -/
inductive ELStep (limit : Nat) {τ : Type} : ELState τ → ELState τ → Prop where
  | start (t : τ) (rest run fin : List τ) : run.length < limit →
      ELStep limit ⟨t :: rest, run, fin⟩ ⟨rest, run ++ [t], fin⟩
  | done (pend run₁ run₂ fin : List τ) (t : τ) :
      ELStep limit ⟨pend, run₁ ++ t :: run₂, fin⟩ ⟨pend, run₁ ++ run₂, fin ++ [t]⟩

/-- States reachable from dispatching `tasks` with concurrency `limit`. -/
def ELReach (limit : Nat) {τ : Type} (tasks : List τ) (s : ELState τ) : Prop :=
  Relation.ReflTransGen (ELStep limit) ⟨tasks, [], []⟩ s

/-- The aggregate outcome reported by the overall callback: the first
error among the sub-batch outcomes, if any. -/
def eachLimitFinal (results : List (Option Err)) : Option Err :=
  results.foldl (fun acc r => match acc with | some e => some e | none => r) none

theorem eachLimitFinal_cons (acc : Option Err) (results : List (Option Err)) :
    results.foldl (fun a r => match a with | some e => some e | none => r) acc =
      match acc with
      | some e => some e
      | none => results.findSome? id := by
  induction results generalizing acc with
  | nil => cases acc <;> simp [List.findSome?]
  | cons r t ih =>
    cases acc with
    | some e => simpa using ih (some e)
    | none => cases r <;> simp [List.findSome?, ih]

theorem elreach_running_le (limit : Nat) {τ : Type} (tasks : List τ)
    (s : ELState τ) (h : ELReach limit tasks s) : s.running.length ≤ limit := by
  induction h with
  | refl => simp
  | tail _ hstep ih =>
    cases hstep with
    | start t rest run fin hlt => simpa using hlt
    | done pend run₁ run₂ fin t =>
      simp only [List.length_append, List.length_cons] at ih ⊢
      omega

/-- C7: for an input list of n (valid) keys, `batchDelete` issues exactly
`ceil(n/1000)` sub-requests, each a POST to the fixed key `.batch_delete`
whose JSON payload is one batch of at most 1000 keys; the scheduler keeps
at most 5 sub-requests in flight at any time; and the aggregate callback
fires once with the first error among the sub-batch outcomes, if any. -/
theorem batchDelete_policy (c : SproxydClient) (keys : List String)
    (reqUids : String) (hval : ∀ k ∈ keys, k.length = 40) :
    (batchDeleteLoop keys []).1.length = (keys.length + 999) / 1000 ∧
    (∀ b ∈ (batchDeleteLoop keys []).1, b.length ≤ 1000) ∧
    (∃ rs, batchDelete c keys reqUids = .ok rs ∧
      rs.length = (keys.length + 999) / 1000 ∧
      ∀ r ∈ rs, r.method = "POST" ∧ r.path = c.path ++ ".batch_delete" ∧
        ∃ b ∈ (batchDeleteLoop keys []).1, r.payload = some (stringifyKeys b)) ∧
    (∀ s : ELState (List String),
      ELReach 5 (batchDeleteLoop keys []).1 s → s.running.length ≤ 5) ∧
    (∀ results : List (Option Err),
      eachLimitFinal results = results.findSome? id) := by
  have hlen : (batchDeleteLoop keys []).1.length = (keys.length + 999) / 1000 := by
    have := batchDeleteLoop_fst_length keys.length keys (Nat.le_refl _) []
    simpa using this
  have hall : keys.all (fun k => k.length == 40) = true :=
    List.all_eq_true.mpr fun k hk => by simpa using hval k hk
  refine ⟨hlen, ?_, ?_, ?_, ?_⟩
  · exact batchDeleteLoop_fst_sizes keys.length keys (Nat.le_refl _) []
      (by intro b hb; simp at hb)
  · refine ⟨_, by rw [batchDelete, if_pos hall], ?_, ?_⟩
    · simpa using hlen
    · intro r hr
      obtain ⟨b, hb, rfl⟩ := List.mem_map.mp hr
      exact ⟨rfl, rfl, ⟨b, hb, rfl⟩⟩
  · intro s hs
    exact elreach_running_le 5 _ s hs
  · intro results
    simpa [eachLimitFinal] using eachLimitFinal_cons none results

/-- Witness for C7: two valid keys form a single batch. -/
theorem batchDelete_policy_witness :
    (batchDeleteLoop ["0123456789ABCDEF0123456789ABCDEF01234567",
        "76543210FEDCBA9876543210FEDCBA9876543210"] []).1.length =
      ((["0123456789ABCDEF0123456789ABCDEF01234567",
        "76543210FEDCBA9876543210FEDCBA9876543210"] : List String).length
        + 999) / 1000 :=
  (batchDelete_policy
    ⟨[("localhost", "81")], ("localhost", "81"), 2, "/proxy/arc/", false⟩
    ["0123456789ABCDEF0123456789ABCDEF01234567",
     "76543210FEDCBA9876543210FEDCBA9876543210"] "uid" (by decide)).1

/-! ## The immutable replica-policy header -/

theorem any_map_setHeader (t : List (String × String)) (n v m : String)
    (h : n ≠ m) :
    ((t.map fun kv => if kv.1 == n then (n, v) else kv).any fun kv => kv.1 == m)
      = t.any fun kv => kv.1 == m := by
  induction t with
  | nil => rfl
  | cons kv t ih =>
    simp only [List.map_cons, List.any_cons, ih]
    by_cases hk : kv.1 = n
    · rw [if_pos (by simpa using hk)]
      simp [hk]
    · rw [if_neg (by simpa using hk)]

theorem hasHeaderB_setHeader_ne (hs : List (String × String)) (n v m : String)
    (h : n ≠ m) : hasHeaderB (setHeader hs n v) m = hasHeaderB hs m := by
  rw [setHeader]
  by_cases hany : hs.any (fun kv => kv.1 == n)
  · rw [if_pos hany]
    simp only [hasHeaderB]
    exact any_map_setHeader hs n v m h
  · rw [if_neg hany]
    simp only [hasHeaderB, List.any_append, List.any_cons, List.any_nil]
    have hnm : (n == m) = false := by simpa using h
    simp [hnm]

theorem hasHeaderB_setHeader_self (hs : List (String × String)) (n v : String) :
    hasHeaderB (setHeader hs n v) n = true := by
  rw [setHeader]
  by_cases hany : hs.any (fun kv => kv.1 == n)
  · rw [if_pos hany]
    simp only [hasHeaderB]
    obtain ⟨kv, hmem, hkv⟩ := List.any_eq_true.mp hany
    refine List.any_eq_true.mpr ⟨(n, v), List.mem_map.mpr ⟨kv, hmem, ?_⟩, by simp⟩
    rw [if_pos hkv]
  · rw [if_neg hany]
    simp only [hasHeaderB, List.any_append, List.any_cons, List.any_nil]
    simp

/-- The request built by `_createRequestHeader` carries the replica-policy
header exactly when the client is immutable or the caller's headers
already carried it. -/
theorem hasHeader_createRequestHeader (c : SproxydClient) (method : String)
    (headers : List (String × String)) (key : String)
    (range : Option (Nat × Nat)) (reqUids : String) :
    hasHeaderB (_createRequestHeader c method headers key range reqUids).headers
        "X-Scal-Replica-Policy" =
      (c.immutable || hasHeaderB headers "X-Scal-Replica-Policy") := by
  simp only [_createRequestHeader]
  rcases range with _ | ⟨a, b⟩ <;> cases him : c.immutable
  · simp only [him, Bool.false_eq_true, ite_false, Bool.false_or]
    rw [hasHeaderB_setHeader_ne _ "X-Scal-Trace-Ids" _ "X-Scal-Replica-Policy"
          (by decide),
        hasHeaderB_setHeader_ne _ "X-Scal-Request-Uids" _ "X-Scal-Replica-Policy"
          (by decide),
        hasHeaderB_setHeader_ne _ "content-type" _ "X-Scal-Replica-Policy"
          (by decide)]
  · simp only [him, ite_true, Bool.true_or]
    rw [hasHeaderB_setHeader_ne _ "X-Scal-Trace-Ids" _ "X-Scal-Replica-Policy"
          (by decide),
        hasHeaderB_setHeader_ne _ "X-Scal-Request-Uids" _ "X-Scal-Replica-Policy"
          (by decide),
        hasHeaderB_setHeader_ne _ "content-type" _ "X-Scal-Replica-Policy"
          (by decide),
        hasHeaderB_setHeader_self]
  · simp only [him, Bool.false_eq_true, ite_false, Bool.false_or]
    rw [hasHeaderB_setHeader_ne _ "Range" _ "X-Scal-Replica-Policy" (by decide),
        hasHeaderB_setHeader_ne _ "X-Scal-Trace-Ids" _ "X-Scal-Replica-Policy"
          (by decide),
        hasHeaderB_setHeader_ne _ "X-Scal-Request-Uids" _ "X-Scal-Replica-Policy"
          (by decide),
        hasHeaderB_setHeader_ne _ "content-type" _ "X-Scal-Replica-Policy"
          (by decide)]
  · simp only [him, ite_true, Bool.true_or]
    rw [hasHeaderB_setHeader_ne _ "Range" _ "X-Scal-Replica-Policy" (by decide),
        hasHeaderB_setHeader_ne _ "X-Scal-Trace-Ids" _ "X-Scal-Replica-Policy"
          (by decide),
        hasHeaderB_setHeader_ne _ "X-Scal-Request-Uids" _ "X-Scal-Replica-Policy"
          (by decide),
        hasHeaderB_setHeader_ne _ "content-type" _ "X-Scal-Replica-Policy"
          (by decide),
        hasHeaderB_setHeader_self]

/-- The request issued by `_handleRequest` carries the replica-policy
header exactly when the client is immutable or the caller's headers
already carried it. -/
theorem hasHeader_handleRequest (c : SproxydClient) (hasStream : Bool)
    (method : String) (size : Nat) (key : Option String)
    (headers : List (String × String)) (range : Option (Nat × Nat))
    (reqUids genKey : String) (payload : Option String) :
    hasHeaderB (_handleRequestRequest c hasStream method size key headers range
        reqUids genKey payload).headers "X-Scal-Replica-Policy" =
      (c.immutable || hasHeaderB headers "X-Scal-Replica-Policy") := by
  simp only [_handleRequestRequest]
  cases hst : hasStream
  · simp only [Bool.false_eq_true, ite_false]
    rw [hasHeaderB_setHeader_ne _ "content-type" _ "X-Scal-Replica-Policy"
          (by decide),
        hasHeaderB_setHeader_ne _ "content-length" _ "X-Scal-Replica-Policy"
          (by decide),
        hasHeader_createRequestHeader]
  · simp only [ite_true]
    rw [hasHeaderB_setHeader_ne _ "content-length" _ "X-Scal-Replica-Policy"
          (by decide),
        hasHeader_createRequestHeader]

/-- Counterexample to C8 as stated: a client constructed with
`immutable: true` does not set `X-Scal-Replica-Policy` on its healthcheck
request. -/
theorem healthcheck_immutable_header_missing :
    (mkSproxydClient id { immutable := true }).immutable = true ∧
    hasHeaderB (healthcheckRequest (mkSproxydClient id { immutable := true })
        "uid").headers "X-Scal-Replica-Policy" = false := by
  exact ⟨rfl, rfl⟩

/-- C8 (amended): a client constructed with `immutable: true` sets the
header `X-Scal-Replica-Policy: immutable` on every request issued through
`_handleRequest` (put, putEmptyObject, get, getHEAD, delete, batchDelete),
and a client constructed without it never sets the header; `healthcheck`
builds its request directly and never carries the header, whatever the
configuration. -/
theorem immutable_header_policy (shuffle : List Endpoint → List Endpoint)
    (opts : Opts) (hasStream : Bool) (method : String) (size : Nat)
    (key : Option String) (headers : List (String × String))
    (range : Option (Nat × Nat)) (reqUids genKey : String)
    (payload : Option String)
    (hh : hasHeaderB headers "X-Scal-Replica-Policy" = false) :
    hasHeaderB (_handleRequestRequest (mkSproxydClient shuffle opts) hasStream
        method size key headers range reqUids genKey payload).headers
        "X-Scal-Replica-Policy" = opts.immutable ∧
    hasHeaderB (healthcheckRequest (mkSproxydClient shuffle opts)
        reqUids).headers "X-Scal-Replica-Policy" = false := by
  constructor
  · rw [hasHeader_handleRequest, hh]
    have : (mkSproxydClient shuffle opts).immutable = opts.immutable := rfl
    rw [this]
    cases opts.immutable <;> rfl
  · rfl

/-- Witness for C8's amended claim: an immutable client carries the header
on a GET request. -/
theorem immutable_header_policy_witness :
    hasHeaderB (_handleRequestRequest (mkSproxydClient id { immutable := true })
        false "GET" 0 (some "0123456789ABCDEF0123456789ABCDEF01234567") []
        none "uid" "" none).headers "X-Scal-Replica-Policy" =
      ({ immutable := true } : Opts).immutable :=
  (immutable_header_policy id { immutable := true } false "GET" 0
    (some "0123456789ABCDEF0123456789ABCDEF01234567") [] none "uid" "" none
    rfl).1

end Sproxyd
